import Mathlib

/-!
Verification of the map-matching and motion-interpolation engine of the
NYC subway tracker (source: `src/public/js/main.js`, `src/public/js/utils.js`).

The engine logic is embedded shallowly:

* positions are rational triples (`Cesium.Cartesian3` values), 2D map
  coordinates are rational pairs (turf `(lon, lat)` coordinates);
* the external Cesium/turf geometry routines (`Cartesian3.fromDegrees`,
  `Cartesian3.distance`, `turf.pointToLineDistance`, `turf.nearestPointOnLine`,
  `turf.lineSlice`, `SampledPositionProperty.getValue`, `Date.now`) are
  collaborators outside this repository; they are modelled as the fields of an
  oracle structure `Geo`, so every theorem holds for an arbitrary geometry
  backend, and a simple computable instance is used for concrete runs;
* `Cesium.Cartesian3.subtract` and `Cesium.Cartesian3.dot` are plain
  componentwise algebra and are defined concretely;
* a `SampledPositionProperty` is modelled by the ordered list of samples in
  the order the engine issues `addSample` calls (`setupProperty` in
  `utils.js` only configures renderer-side interpolation and extrapolation,
  which does not affect the sample sequence, so it has no counterpart here);
* the mutable fields of the global `appState` that the engine touches are the
  fields of `EngineState`; mutation becomes explicit state passing;
* `chunkProcessor` (in `utils.js`) schedules its recursion through
  `requestAnimationFrame`; a run is modelled as the finite trace of events it
  emits, with a terminal `stuck` event marking the one situation in which the
  JS recursion re-schedules itself forever without making progress.
-/

namespace Subway

/-- A turf 2D coordinate `(lon, lat)`. -/
abbrev Coord : Type := ℚ × ℚ

/-- A `Cesium.Cartesian3` position. -/
abbrev Pos : Type := ℚ × ℚ × ℚ

/-- A point on the `Cesium.JulianDate` time axis, in seconds
(`JulianDate.addSeconds` becomes rational addition). -/
abbrev Time : Type := ℚ

/-- One flattened track segment: the ordered `(lon, lat)` vertex list of a
turf `LineString` feature (`appState.flattenedRouteMap` values are arrays of
such features). -/
abbrev Segment : Type := List Coord

/-- One sample of a `SampledPositionProperty`: the pair passed to one
`addSample(time, position)` call. -/
structure MotionSample where
  time : Time
  pos : Pos
deriving DecidableEq

/-- A `SampledPositionProperty`, as the list of its samples in the order the
engine adds them. -/
abbrev MotionProperty : Type := List MotionSample

/-- One decoded vehicle fix, as delivered by the `/api/subway` feed:
`{id, route, lat, lon, status}`.  `status` is the GTFS-realtime
`currentStatus` integer; the engine compares it with `1` (`STOPPED_AT`). -/
structure VehicleFix where
  id : String
  route : String
  lat : ℚ
  lon : ℚ
  status : ℤ
deriving DecidableEq

/-- The engine-relevant part of a Cesium entity created by `createNewTrain`:
`{id, route, show, position}` (the point and label graphics are pure
presentation and carry no engine state).  The JS field `show` is named
`visible` here because `show` is a Lean keyword. -/
structure Entity where
  id : String
  route : String
  visible : Bool
  position : MotionProperty
deriving DecidableEq

/-- The map from route key to flattened track segments
(`appState.flattenedRouteMap`); a key that was never populated reads as
`none`, matching the JS `undefined`. -/
abbrev RouteMap : Type := String → Option (List Segment)

/-- The mutable fields of the global `appState` that the train-update engine
reads or writes. -/
structure EngineState where
  flattenedRouteMap : RouteMap
  trainEntities : String → Option Entity
  lastKnownCoords : String → Option Pos
  lastSeenTimes : String → Option ℚ
  hiddenLines : String → Bool

/-- The external geometry collaborators (Cesium and turf calls and the wall
clock), bundled as an oracle: the engine theorems hold for every backend. -/
structure Geo where
  /-- `Cesium.Cartesian3.fromDegrees lon lat height`. -/
  fromDegrees : ℚ → ℚ → ℚ → Pos
  /-- `Cesium.Cartesian3.distance`. -/
  distance : Pos → Pos → ℚ
  /-- `Cesium.Cartographic.fromCartesian` followed by `Cesium.Math.toDegrees`
  on longitude and latitude, as used to build the turf start point. -/
  toDegreesCoord : Pos → Coord
  /-- `turf.pointToLineDistance point segment`. -/
  pointToLineDistance : Coord → Segment → ℚ
  /-- `turf.nearestPointOnLine segment point`, reduced to the coordinates of
  the returned snapped feature. -/
  nearestPointOnLine : Segment → Coord → Coord
  /-- `turf.lineSlice start stop line`, reduced to the coordinate list of the
  returned slice. -/
  lineSlice : Coord → Coord → Segment → List Coord
  /-- `SampledPositionProperty.getValue` (interpolation at a time; may fail). -/
  getValue : MotionProperty → Time → Option Pos
  /-- `Date.now()` at the processing instant. -/
  nowMs : ℚ

/-- `Cesium.Cartesian3.subtract a b` (componentwise). -/
def csub (a b : Pos) : Pos := (a.1 - b.1, a.2.1 - b.2.1, a.2.2 - b.2.2)

/-- `Cesium.Cartesian3.dot`. -/
def cdot (a b : Pos) : ℚ := a.1 * b.1 + a.2.1 * b.2.1 + a.2.2 * b.2.2

/-- JS map assignment `m[k] = v` on a string-keyed object. -/
def setKey {β : Type} (m : String → Option β) (k : String) (v : β) :
    String → Option β :=
  fun q => if q = k then some v else m q

/-- `handleUnwantedBehavior(state, train, rawPos, entity, currentTime)` from
`main.js`.  Returns the JS boolean result together with the state after the
mutations the call performs. -/
def handleUnwantedBehavior (geo : Geo) (s : EngineState) (train : VehicleFix)
    (rawPos : Pos) (entity : Option Entity) (currentTime : Time) :
    Bool × EngineState :=
  match entity, s.lastKnownCoords train.id with
  | some e, some last =>
    let dist := geo.distance last rawPos
    -- teleport guard: a jump of more than 2 km is treated as a recycled id
    if 2000 < dist then
      let jumpProp : MotionProperty := [⟨currentTime, rawPos⟩]
      (true,
        { s with
          trainEntities := setKey s.trainEntities train.id { e with position := jumpProp },
          lastKnownCoords := setKey s.lastKnownCoords train.id rawPos })
    -- stopped trains: append the raw position without track matching
    else if train.status = 1 then
      (true,
        { s with
          trainEntities := setKey s.trainEntities train.id
            { e with position := e.position ++ [⟨currentTime, rawPos⟩] },
          lastKnownCoords := setKey s.lastKnownCoords train.id rawPos })
    else (false, s)
  | _, _ => (false, s)

/-- The loop body of the linear scan of `findPositionAlongTrack`: compare the
distance of one segment against the running minimum (a JS number that starts
as `Infinity`, modelled by `WithTop ℚ`), updating `(closestLine, minDist)` on
a strictly smaller distance. -/
def scanStep (d : Segment → ℚ) (acc : Segment × WithTop ℚ) (seg : Segment) :
    Segment × WithTop ℚ :=
  if (d seg : WithTop ℚ) < acc.2 then (seg, (d seg : WithTop ℚ)) else acc

/-- The linear scan of `findPositionAlongTrack`: fold `scanStep` over all
segments, starting from `(flatSegments[0], Infinity)`. -/
def scanSegments (d : Segment → ℚ) (segs : List Segment) (first : Segment) :
    Segment × WithTop ℚ :=
  segs.foldl (scanStep d) (first, ⊤)

/-- The result object `{newPos, closestLine, snappedNew}` of
`findPositionAlongTrack`. -/
structure SnapResult where
  newPos : Pos
  closestLine : Segment
  snappedNew : Coord
deriving DecidableEq

/-- `findPositionAlongTrack(train, rawPos)` from `main.js`.  It reads the
global `appState.flattenedRouteMap`, passed here explicitly.  (The JS
`rawPos` parameter is unused by the function body, which rebuilds the turf
point from `train.lon` and `train.lat`.) -/
def findPositionAlongTrack (geo : Geo) (rm : RouteMap) (train : VehicleFix) :
    Option SnapResult :=
  match rm train.route with
  | none => none
  | some flatSegments =>
    match flatSegments with
    | [] => none
    | first :: _ =>
      let rawTrainPoint : Coord := (train.lon, train.lat)
      let scan := scanSegments (fun seg => geo.pointToLineDistance rawTrainPoint seg)
        flatSegments first
      let closestLine := scan.1
      let snappedNew := geo.nearestPointOnLine closestLine rawTrainPoint
      let newPos := geo.fromDegrees snappedNew.1 snappedNew.2 5
      some ⟨newPos, closestLine, snappedNew⟩

/-- The waypoint-resampling loop of `updateTrainAnimation`: when the slice has
more than one vertex, orient it by the travel-direction dot product and emit
one timed sample per vertex, waypoint `i` of `N` at time offset
`(i / (N - 1)) * calculatedDuration`; otherwise emit nothing. -/
def resampleWaypoints (geo : Geo) (newPos currentPos : Pos) (coords : List Coord)
    (currentTime : Time) (calculatedDuration : ℚ) : List MotionSample :=
  match coords with
  | c0 :: c1 :: _ =>
    let travelVector := csub newPos currentPos
    let p1 := geo.fromDegrees c0.1 c0.2 5
    let p2 := geo.fromDegrees c1.1 c1.2 5
    let trackVector := csub p2 p1
    let coords2 := if cdot travelVector trackVector < 0 then coords.reverse else coords
    coords2.enum.map (fun ic =>
      let timeOffset := ((ic.1 : ℚ) / ((coords2.length - 1 : ℕ) : ℚ)) * calculatedDuration
      ⟨currentTime + timeOffset, geo.fromDegrees ic.2.1 ic.2.2 5⟩)
  | _ => []

/-- `updateTrainAnimation(state, entity, newPos, closestLine, snappedNew,
currentTime, targetSpeed)` from `main.js`. -/
def updateTrainAnimation (geo : Geo) (s : EngineState) (entity : Entity)
    (newPos : Pos) (closestLine : Segment) (snappedNew : Coord)
    (currentTime : Time) (targetSpeed : ℚ) : EngineState :=
  let trainId := entity.id
  match geo.getValue entity.position currentTime with
  | none => s
  | some currentPos =>
    let distToNewTarget := geo.distance currentPos newPos
    -- no significant movement: skip the recomputation entirely
    if distToNewTarget < 10 then s
    else
      let calculatedDuration := max 20 (distToNewTarget / targetSpeed)
      let startPoint := geo.toDegreesCoord currentPos
      let coords := geo.lineSlice startPoint snappedNew closestLine
      let newProperty : MotionProperty :=
        ⟨currentTime, currentPos⟩ ::
          resampleWaypoints geo newPos currentPos coords currentTime calculatedDuration
      { s with
        trainEntities := setKey s.trainEntities trainId { entity with position := newProperty },
        lastKnownCoords := setKey s.lastKnownCoords trainId newPos }

/-- `createNewTrain(state, train, newPos, currentTime)` from `main.js`. -/
def createNewTrain (s : EngineState) (train : VehicleFix) (newPos : Pos)
    (currentTime : Time) : EngineState :=
  let property : MotionProperty := [⟨currentTime, newPos⟩]
  let entity : Entity :=
    { id := train.id, route := train.route,
      visible := !(s.hiddenLines train.route), position := property }
  { s with
    trainEntities := setKey s.trainEntities train.id entity,
    lastKnownCoords := setKey s.lastKnownCoords train.id newPos }

/-- `processTrain(state, train, currentTime, targetSpeed)` from `main.js`. -/
def processTrain (geo : Geo) (s : EngineState) (train : VehicleFix)
    (currentTime : Time) (targetSpeed : ℚ) : EngineState :=
  let trainId := train.id
  let rawPos := geo.fromDegrees train.lon train.lat 5
  let entity := s.trainEntities trainId
  let s1 : EngineState := { s with lastSeenTimes := setKey s.lastSeenTimes trainId geo.nowMs }
  let handled := handleUnwantedBehavior geo s1 train rawPos entity currentTime
  if handled.1 then handled.2
  else
    match findPositionAlongTrack geo handled.2.flattenedRouteMap train with
    | none => handled.2
    | some snap =>
      match entity with
      | some e =>
        updateTrainAnimation geo handled.2 e snap.newPos snap.closestLine snap.snappedNew
          currentTime targetSpeed
      | none => createNewTrain handled.2 train snap.newPos currentTime

/-- One observable event of a `chunkProcessor` run (`utils.js`): an item
handed to `processFn`, a `requestAnimationFrame` yield back to the host frame
loop, the `onComplete` invocation, or the marker `stuck` recording that the
JS recursion re-schedules itself forever without making progress (which
happens exactly when a tick processes no item while items remain, i.e. with
batch size `0`). -/
inductive ChunkEvent (α : Type) where
  | process (item : α)
  | yieldFrame
  | complete
  | stuck
deriving DecidableEq

/-- One `run()` activation of `chunkProcessor` starting at `index`, together
with everything it later schedules: it processes `items[index]` up to
`items[min (index + batchSize) items.length]` (exclusive), then either yields
to the next animation frame and continues, or fires `onComplete`. -/
def chunkRunFrom {α : Type} (items : List α) (batchSize : ℕ) (index : ℕ) :
    List (ChunkEvent α) :=
  let endIdx := min (index + batchSize) items.length
  let batch := ((items.drop index).take (endIdx - index)).map ChunkEvent.process
  if endIdx < items.length then
    if _h : index < endIdx then
      batch ++ ChunkEvent.yieldFrame :: chunkRunFrom items batchSize endIdx
    else
      -- endIdx = index < items.length: the JS recursion schedules itself
      -- forever without progress
      batch ++ [ChunkEvent.yieldFrame, ChunkEvent.stuck]
  else
    batch ++ [ChunkEvent.complete]
termination_by items.length - index
decreasing_by simp_wf; omega

/-- A full `chunkProcessor(items, processFn, onComplete, batchSize)` run:
`run()` is first invoked synchronously with `index = 0`. -/
def chunkRun {α : Type} (items : List α) (batchSize : ℕ) : List (ChunkEvent α) :=
  chunkRunFrom items batchSize 0

/-- The items a trace hands to `processFn`, in order. -/
def processedOf {α : Type} : List (ChunkEvent α) → List α
  | [] => []
  | ChunkEvent.process a :: es => a :: processedOf es
  | _ :: es => processedOf es

/-- How many times a trace invokes the completion callback. -/
def completeCount {α : Type} : List (ChunkEvent α) → ℕ
  | [] => 0
  | ChunkEvent.complete :: es => completeCount es + 1
  | _ :: es => completeCount es

/-- Accumulating helper for `tickSizes`: `acc` counts the items processed in
the tick currently being scanned. -/
def tickSizesGo {α : Type} : ℕ → List (ChunkEvent α) → List ℕ
  | acc, [] => [acc]
  | acc, ChunkEvent.process _ :: es => tickSizesGo (acc + 1) es
  | acc, ChunkEvent.yieldFrame :: es => acc :: tickSizesGo 0 es
  | acc, ChunkEvent.complete :: es => tickSizesGo acc es
  | acc, ChunkEvent.stuck :: es => tickSizesGo acc es

/-- The number of items processed in each scheduling tick of a trace, in
order (ticks are separated by the `requestAnimationFrame` yields). -/
def tickSizes {α : Type} (es : List (ChunkEvent α)) : List ℕ :=
  tickSizesGo 0 es

/-- The tick sizes a run over `rem` remaining items with the given batch size
should produce: full batches followed by the remainder. -/
def tickList (batchSize : ℕ) (rem : ℕ) : List ℕ :=
  if rem ≤ batchSize then [rem]
  else if _h : batchSize = 0 then []
  else batchSize :: tickList batchSize (rem - batchSize)
termination_by rem
decreasing_by simp_wf; omega

/-- The side the anomaly guard takes when it defers to the track matcher:
no existing entity, no recorded last position, or a displacement of at most
2000 m from a fix that is not stopped. -/
def guardDefers (geo : Geo) (s : EngineState) (train : VehicleFix) : Prop :=
  match s.trainEntities train.id, s.lastKnownCoords train.id with
  | some _, some last =>
    ¬ 2000 < geo.distance last (geo.fromDegrees train.lon train.lat 5) ∧ train.status ≠ 1
  | _, _ => True

/-! Concrete inputs for running the engine.  `geoC` is a toy computable
geometry backend: positions are identified with their degree coordinates, the
nearest point on a line is its first vertex, a slice is the pair of its two
query points, and interpolation returns the last sample (the HOLD
extrapolation policy).  The distance functions return the larger of the two
first coordinates involved; they avoid rational field arithmetic so that
concrete engine runs reduce by kernel computation, and the inputs below are
laid out on the first coordinate axis accordingly. -/

/-- A computable geometry backend for concrete runs. -/
def geoC : Geo where
  fromDegrees := fun lon lat h => (lon, lat, h)
  distance := fun a b => if a.1 < b.1 then b.1 else a.1
  toDegreesCoord := fun p => (p.1, p.2.1)
  pointToLineDistance := fun c seg =>
    if c.1 < (seg.headD (0, 0)).1 then (seg.headD (0, 0)).1 else c.1
  nearestPointOnLine := fun seg c => seg.headD c
  lineSlice := fun a b _ => [a, b]
  getValue := fun mp _ => (mp.getLast?).map MotionSample.pos
  nowMs := 1000

/-- Like `geoC` but `lineSlice` always returns a degenerate empty slice. -/
def geoNil : Geo :=
  { geoC with lineSlice := fun _ _ _ => [] }

/-- A straight track segment along the equator. -/
def segA : Segment := [(0, 0), (100, 0)]

/-- A second, distinct track segment. -/
def segB : Segment := [(1, 1), (2, 2)]

/-- A state with track geometry for route `A` and no tracked vehicles. -/
def stateNew : EngineState where
  flattenedRouteMap := fun r => if r = "A" then some [segA] else none
  trainEntities := fun _ => none
  lastKnownCoords := fun _ => none
  lastSeenTimes := fun _ => none
  hiddenLines := fun _ => false

/-- An already-tracked vehicle `t1` whose single sample sits at `(50, 0, 5)`. -/
def ent1 : Entity where
  id := "t1"
  route := "A"
  visible := true
  position := [⟨0, (50, 0, 5)⟩]

/-- A state tracking `t1` at `(50, 0, 5)`, with geometry for route `A`. -/
def stateTracked : EngineState where
  flattenedRouteMap := fun r => if r = "A" then some [segA] else none
  trainEntities := fun k => if k = "t1" then some ent1 else none
  lastKnownCoords := fun k => if k = "t1" then some (50, 0, 5) else none
  lastSeenTimes := fun _ => none
  hiddenLines := fun _ => false

/-- An already-tracked vehicle `t9` whose single sample sits at `(4, 0, 5)`. -/
def ent9 : Entity where
  id := "t9"
  route := "A"
  visible := true
  position := [⟨0, (4, 0, 5)⟩]

/-- A state tracking `t9` at `(4, 0, 5)`, with geometry for route `A`. -/
def stateC9 : EngineState where
  flattenedRouteMap := fun r => if r = "A" then some [segA] else none
  trainEntities := fun k => if k = "t9" then some ent9 else none
  lastKnownCoords := fun k => if k = "t9" then some (4, 0, 5) else none
  lastSeenTimes := fun _ => none
  hiddenLines := fun _ => false

/-- A state tracking `t1` with its last known position far away at
`(9999, 0, 5)` and no track geometry at all. -/
def stateFar : EngineState where
  flattenedRouteMap := fun _ => none
  trainEntities := fun k => if k = "t1" then some ent1 else none
  lastKnownCoords := fun k => if k = "t1" then some (9999, 0, 5) else none
  lastSeenTimes := fun _ => none
  hiddenLines := fun _ => false

/-- A state whose route `B` carries two segments, the second one closer to
the origin under `geoC`. -/
def stateC3 : EngineState where
  flattenedRouteMap := fun r => if r = "B" then some [segB, segA] else none
  trainEntities := fun _ => none
  lastKnownCoords := fun _ => none
  lastSeenTimes := fun _ => none
  hiddenLines := fun _ => false

/-- A first sighting of a fresh id on route `A`. -/
def fixNewA : VehicleFix := ⟨"n1", "A", 0, 7, 0⟩

/-- A first sighting of a fresh id on a route with no geometry. -/
def fixNewZ : VehicleFix := ⟨"n1", "Z", 0, 7, 0⟩

/-- Another fresh id on a route with no geometry. -/
def fixZ2 : VehicleFix := ⟨"n2", "Z", 0, 7, 0⟩

/-- A fix for `t1` that jumps 2950 m away from its last known position. -/
def fixJump : VehicleFix := ⟨"t1", "A", 0, 3000, 0⟩

/-- A stopped fix for `t1`, 10 m from its last known position. -/
def fixStop : VehicleFix := ⟨"t1", "A", 0, 60, 1⟩

/-- An in-transit fix for `t1` at its last known position; under `geoC` it
snaps to `(0, 0, 5)`, 50 m from the current interpolated position. -/
def fixMove : VehicleFix := ⟨"t1", "A", 0, 50, 0⟩

/-- An in-transit fix for `t9`; under `geoC` it snaps to `(0, 0, 5)`, only
4 m from the current interpolated position. -/
def fixNear : VehicleFix := ⟨"t9", "A", 0, 4, 0⟩

/-- A fix at the origin on route `B`, used to exercise the two-segment scan. -/
def fixB : VehicleFix := ⟨"n3", "B", 0, 0, 0⟩

/-- A fix for tracked `t1` on a geometry-less route. -/
def fixFarZ : VehicleFix := ⟨"t1", "Z", 0, 0, 0⟩

/-! Lemmas about chunk-processor traces. -/

theorem processedOf_append {α : Type} (l1 l2 : List (ChunkEvent α)) :
    processedOf (l1 ++ l2) = processedOf l1 ++ processedOf l2 := by
  induction l1 with
  | nil => rfl
  | cons e es ih => cases e <;> simp [processedOf, ih]

theorem processedOf_map_process {α : Type} (l : List α) :
    processedOf (l.map ChunkEvent.process) = l := by
  induction l with
  | nil => rfl
  | cons a l ih => simp [processedOf, ih]

theorem completeCount_append {α : Type} (l1 l2 : List (ChunkEvent α)) :
    completeCount (l1 ++ l2) = completeCount l1 + completeCount l2 := by
  induction l1 with
  | nil => simp [completeCount]
  | cons e es ih =>
    cases e <;> simp [completeCount, ih]
    omega

theorem completeCount_map_process {α : Type} (l : List α) :
    completeCount (l.map ChunkEvent.process) = 0 := by
  induction l with
  | nil => rfl
  | cons a l ih => simpa [completeCount] using ih

theorem tickSizesGo_map_process {α : Type} (l : List α) :
    ∀ (acc : ℕ) (es : List (ChunkEvent α)),
      tickSizesGo acc (l.map ChunkEvent.process ++ es) = tickSizesGo (acc + l.length) es := by
  induction l with
  | nil => intro acc es; simp [tickSizesGo]
  | cons a l ih =>
    intro acc es
    rw [List.map_cons, List.cons_append]
    rw [show tickSizesGo acc (ChunkEvent.process a :: (l.map ChunkEvent.process ++ es)) =
      tickSizesGo (acc + 1) (l.map ChunkEvent.process ++ es) from rfl, ih]
    congr 1
    simp
    omega

/-- The terminal activation: everything from `index` on fits in one batch. -/
theorem chunkRunFrom_terminal {α : Type} (items : List α) (b i : ℕ)
    (h : items.length ≤ i + b) :
    chunkRunFrom items b i = (items.drop i).map ChunkEvent.process ++ [ChunkEvent.complete] := by
  rw [chunkRunFrom]
  have he : min (i + b) items.length = items.length := by omega
  simp only [he, lt_irrefl, if_false]
  congr 2
  exact List.take_of_length_le (by simp)

/-- A non-terminal activation: a full batch, a yield, and the rest. -/
theorem chunkRunFrom_step {α : Type} (items : List α) (b i : ℕ) (hb : 1 ≤ b)
    (h : i + b < items.length) :
    chunkRunFrom items b i =
      ((items.drop i).take b).map ChunkEvent.process ++
        ChunkEvent.yieldFrame :: chunkRunFrom items b (i + b) := by
  rw [chunkRunFrom]
  have he : min (i + b) items.length = i + b := by omega
  simp only [he, if_pos h, dif_pos (show i < i + b by omega)]
  congr 3
  omega

theorem chunkRunFrom_spec {α : Type} (items : List α) (b : ℕ) (hb : 1 ≤ b) :
    ∀ n i, items.length - i ≤ n →
      processedOf (chunkRunFrom items b i) = items.drop i ∧
      completeCount (chunkRunFrom items b i) = 1 ∧
      (chunkRunFrom items b i).getLast? = some ChunkEvent.complete ∧
      tickSizes (chunkRunFrom items b i) = tickList b (items.length - i) := by
  intro n
  induction n with
  | zero =>
    intro i hi
    rw [chunkRunFrom_terminal items b i (by omega)]
    have hd : items.drop i = [] := List.drop_eq_nil_of_le (by omega)
    rw [hd]
    refine ⟨rfl, rfl, rfl, ?_⟩
    rw [tickList]
    simp [tickSizes, tickSizesGo, show items.length - i = 0 by omega]
  | succ n ih =>
    intro i hi
    by_cases hlt : i + b < items.length
    · rw [chunkRunFrom_step items b i hb hlt]
      obtain ⟨ih1, ih2, ih3, ih4⟩ := ih (i + b) (by omega)
      have hlen : ((items.drop i).take b).length = b := by
        simp [List.length_take, List.length_drop]
        omega
      have hne : chunkRunFrom items b (i + b) ≠ [] := by
        intro hcontra
        rw [hcontra] at ih3
        simp at ih3
      refine ⟨?_, ?_, ?_, ?_⟩
      · rw [processedOf_append, processedOf_map_process]
        rw [show processedOf (ChunkEvent.yieldFrame :: chunkRunFrom items b (i + b)) =
          processedOf (chunkRunFrom items b (i + b)) from rfl, ih1]
        rw [show items.drop (i + b) = (items.drop i).drop b from (List.drop_drop b i items).symm]
        exact List.take_append_drop b (items.drop i)
      · rw [completeCount_append, completeCount_map_process]
        rw [show completeCount (ChunkEvent.yieldFrame :: chunkRunFrom items b (i + b)) =
          completeCount (chunkRunFrom items b (i + b)) from rfl, ih2]
      · rw [show ((items.drop i).take b).map ChunkEvent.process ++
            ChunkEvent.yieldFrame :: chunkRunFrom items b (i + b) =
            (((items.drop i).take b).map ChunkEvent.process ++ [ChunkEvent.yieldFrame]) ++
            chunkRunFrom items b (i + b) by simp]
        rw [List.getLast?_append_of_ne_nil _ hne]
        exact ih3
      · rw [tickSizes, tickSizesGo_map_process, hlen]
        rw [show tickSizesGo (0 + b) (ChunkEvent.yieldFrame :: chunkRunFrom items b (i + b)) =
          (0 + b) :: tickSizesGo 0 (chunkRunFrom items b (i + b)) from rfl]
        rw [show tickSizesGo 0 (chunkRunFrom items b (i + b)) =
          tickSizes (chunkRunFrom items b (i + b)) from rfl, ih4]
        conv_rhs => rw [tickList]
        rw [if_neg (show ¬ items.length - i ≤ b by omega), dif_neg (by omega)]
        rw [Nat.sub_sub]
        simp
    · rw [chunkRunFrom_terminal items b i (by omega)]
      have hne : ([ChunkEvent.complete] : List (ChunkEvent α)) ≠ [] := by simp
      refine ⟨?_, ?_, ?_, ?_⟩
      · rw [processedOf_append, processedOf_map_process]
        simp [processedOf]
      · rw [completeCount_append, completeCount_map_process]
        rfl
      · rw [List.getLast?_append_of_ne_nil _ hne]
        rfl
      · rw [tickSizes, tickSizesGo_map_process, List.length_drop]
        rw [tickList, if_pos (show items.length - i ≤ b by omega)]
        simp [tickSizesGo]

theorem tickList_37_15 : tickList 15 37 = [15, 15, 7] := by
  have e1 : tickList 15 37 = 15 :: tickList 15 22 := by rw [tickList]; norm_num
  have e2 : tickList 15 22 = 15 :: tickList 15 7 := by rw [tickList]; norm_num
  have e3 : tickList 15 7 = [7] := by rw [tickList]; norm_num
  rw [e1, e2, e3]

/-- C4 (amended): for every input sequence of fixes and every positive batch
size (the default is 15), the batch scheduler processes each fix exactly once
in the input order, invokes the completion callback exactly once, as the very
last event (hence after the final tick), and for an empty input invokes
completion immediately with no intervening yield; the tick sizes are full
batches followed by the remainder, so for 37 fixes with batch size 15 it
performs exactly 3 ticks of 15, 15 and 7 fixes.  (The claim as frozen
quantifies over every batch size; with batch size 0 and a nonempty input the
JS recursion never progresses, see the counterexample.) -/
theorem chunkProcessor_spec {α : Type} (items : List α) (b : ℕ) (hb : 1 ≤ b) :
    processedOf (chunkRun items b) = items ∧
    completeCount (chunkRun items b) = 1 ∧
    (chunkRun items b).getLast? = some ChunkEvent.complete ∧
    chunkRun ([] : List α) b = [ChunkEvent.complete] ∧
    tickSizes (chunkRun items b) = tickList b items.length ∧
    tickList 15 37 = [15, 15, 7] := by
  obtain ⟨h1, h2, h3, h4⟩ := chunkRunFrom_spec items b hb items.length 0 (by omega)
  refine ⟨by simpa using h1, h2, h3, ?_, by simpa using h4, tickList_37_15⟩
  rw [chunkRun, chunkRunFrom_terminal _ _ _ (by simp)]
  simp

theorem chunkProcessor_spec_witness :
    1 ≤ 2 ∧
    processedOf (chunkRun [10, 20, 30] 2) = [10, 20, 30] ∧
    completeCount (chunkRun [10, 20, 30] 2) = 1 ∧
    tickSizes (chunkRun [10, 20, 30] 2) = tickList 2 3 :=
  ⟨by decide, (chunkProcessor_spec [10, 20, 30] 2 (by decide)).1,
    (chunkProcessor_spec [10, 20, 30] 2 (by decide)).2.1,
    (chunkProcessor_spec [10, 20, 30] 2 (by decide)).2.2.2.2.1⟩

/-- C4 counterexample: with batch size 0 and the nonempty input `[0]`, a tick
processes no item while one remains, so the JS `run` re-schedules itself via
`requestAnimationFrame` forever: the fix is never processed and the
completion callback never fires, refuting the claim as frozen, which
quantifies over every batch size. -/
theorem chunkProcessor_batchZero_counterexample :
    ¬ (processedOf (chunkRun [(0 : ℕ)] 0) = [0] ∧
       completeCount (chunkRun [(0 : ℕ)] 0) = 1) := by
  have h : chunkRun [(0 : ℕ)] 0 = [ChunkEvent.yieldFrame, ChunkEvent.stuck] := by
    rw [chunkRun, chunkRunFrom]
    norm_num
  rw [h]
  simp [processedOf, completeCount]

/-! Lemmas about the anomaly guard and `processTrain`. -/

/-- When the guard defers (`guardDefers`), `handleUnwantedBehavior` returns
`false` and leaves the state it was handed untouched.  Stated for any state
`sb` agreeing with `s` on entities and last known coordinates, because
`processTrain` calls the guard after refreshing the last-seen time. -/
theorem handleUnwantedBehavior_of_defers (geo : Geo) (s sb : EngineState)
    (train : VehicleFix) (t : Time)
    (hlast : sb.lastKnownCoords = s.lastKnownCoords)
    (h : guardDefers geo s train) :
    handleUnwantedBehavior geo sb train (geo.fromDegrees train.lon train.lat 5)
      (s.trainEntities train.id) t = (false, sb) := by
  unfold guardDefers at h
  unfold handleUnwantedBehavior
  rw [hlast]
  cases he : s.trainEntities train.id with
  | none => rfl
  | some e =>
    cases hl : s.lastKnownCoords train.id with
    | none => rfl
    | some last =>
      rw [he, hl] at h
      dsimp only
      rw [if_neg h.1, if_neg h.2]

/-- C6: a fix for a tracked vehicle whose raw position is more than 2000 m
from the recorded last track-space position resets the MotionProperty to the
single sample `(now, rawPos)`, sets the last track-space position to the raw
position, refreshes the last-seen time, and changes nothing else: the result
does not consult the track geometry at all, so matching and path building
are skipped. -/
theorem processTrain_jump_reset (geo : Geo) (s : EngineState) (train : VehicleFix)
    (t : Time) (speed : ℚ) (e : Entity) (last : Pos)
    (hent : s.trainEntities train.id = some e)
    (hlast : s.lastKnownCoords train.id = some last)
    (hdist : 2000 < geo.distance last (geo.fromDegrees train.lon train.lat 5)) :
    processTrain geo s train t speed =
      { s with
        lastSeenTimes := setKey s.lastSeenTimes train.id geo.nowMs,
        trainEntities := setKey s.trainEntities train.id
          { e with position := [⟨t, geo.fromDegrees train.lon train.lat 5⟩] },
        lastKnownCoords := setKey s.lastKnownCoords train.id
          (geo.fromDegrees train.lon train.lat 5) } := by
  unfold processTrain handleUnwantedBehavior
  dsimp only
  rw [hent, hlast]
  dsimp only
  rw [if_pos hdist]
  rfl

theorem processTrain_jump_reset_witness :
    stateTracked.trainEntities "t1" = some ent1 ∧
    stateTracked.lastKnownCoords "t1" = some (50, 0, 5) ∧
    2000 < geoC.distance (50, 0, 5) (geoC.fromDegrees 3000 0 5) ∧
    processTrain geoC stateTracked fixJump 7 18 =
      { stateTracked with
        lastSeenTimes := setKey stateTracked.lastSeenTimes "t1" 1000,
        trainEntities := setKey stateTracked.trainEntities "t1"
          { ent1 with position := [⟨7, (3000, 0, 5)⟩] },
        lastKnownCoords := setKey stateTracked.lastKnownCoords "t1" (3000, 0, 5) } :=
  ⟨rfl, rfl, by decide,
    processTrain_jump_reset geoC stateTracked fixJump 7 18 ent1 (50, 0, 5) rfl rfl (by decide)⟩

/-- C7: a fix for a tracked vehicle within 2000 m of the recorded last
track-space position whose status is STOPPED (`status === 1`) appends exactly
one sample `(now, rawPos)` to the existing MotionProperty, sets the last
track-space position to the raw position, refreshes the last-seen time, and
changes nothing else: the result does not consult the track geometry, so no
track matching or direction correction is performed. -/
theorem processTrain_stopped_append (geo : Geo) (s : EngineState) (train : VehicleFix)
    (t : Time) (speed : ℚ) (e : Entity) (last : Pos)
    (hent : s.trainEntities train.id = some e)
    (hlast : s.lastKnownCoords train.id = some last)
    (hdist : ¬ 2000 < geo.distance last (geo.fromDegrees train.lon train.lat 5))
    (hstop : train.status = 1) :
    processTrain geo s train t speed =
      { s with
        lastSeenTimes := setKey s.lastSeenTimes train.id geo.nowMs,
        trainEntities := setKey s.trainEntities train.id
          { e with position := e.position ++ [⟨t, geo.fromDegrees train.lon train.lat 5⟩] },
        lastKnownCoords := setKey s.lastKnownCoords train.id
          (geo.fromDegrees train.lon train.lat 5) } := by
  unfold processTrain handleUnwantedBehavior
  dsimp only
  rw [hent, hlast]
  dsimp only
  rw [if_neg hdist, if_pos hstop]
  rfl

theorem processTrain_stopped_append_witness :
    stateTracked.trainEntities "t1" = some ent1 ∧
    ¬ 2000 < geoC.distance (50, 0, 5) (geoC.fromDegrees 60 0 5) ∧
    fixStop.status = 1 ∧
    processTrain geoC stateTracked fixStop 7 18 =
      { stateTracked with
        lastSeenTimes := setKey stateTracked.lastSeenTimes "t1" 1000,
        trainEntities := setKey stateTracked.trainEntities "t1"
          { ent1 with position := ent1.position ++ [⟨7, (60, 0, 5)⟩] },
        lastKnownCoords := setKey stateTracked.lastKnownCoords "t1" (60, 0, 5) } :=
  ⟨rfl, by decide, rfl,
    processTrain_stopped_append geoC stateTracked fixStop 7 18 ent1 (50, 0, 5) rfl rfl
      (by decide) rfl⟩

/-- Under `guardDefers`, `processTrain` refreshes the last-seen time and then
dispatches on the track-matcher result. -/
theorem processTrain_of_defers (geo : Geo) (s : EngineState) (train : VehicleFix)
    (t : Time) (speed : ℚ) (h : guardDefers geo s train) :
    processTrain geo s train t speed =
      (match findPositionAlongTrack geo s.flattenedRouteMap train with
       | none => { s with lastSeenTimes := setKey s.lastSeenTimes train.id geo.nowMs }
       | some snap =>
         match s.trainEntities train.id with
         | some e =>
           updateTrainAnimation geo
             { s with lastSeenTimes := setKey s.lastSeenTimes train.id geo.nowMs }
             e snap.newPos snap.closestLine snap.snappedNew t speed
         | none =>
           createNewTrain { s with lastSeenTimes := setKey s.lastSeenTimes train.id geo.nowMs }
             train snap.newPos t) := by
  unfold processTrain
  dsimp only
  rw [handleUnwantedBehavior_of_defers geo s
    { s with lastSeenTimes := setKey s.lastSeenTimes train.id geo.nowMs } train t rfl h]
  rfl

/-- C2 (amended): a fix whose route has a missing or empty track-segment set
and on which the anomaly guard defers is dropped: no entity is created or
updated, the motion property and the last-known position of every vehicle are
unchanged, and the only mutation is that the last-seen time of the vehicle id
is refreshed.  (The claim as frozen says no state changes at all and makes no
exception for the guard, which runs before the geometry lookup; see the
counterexample.) -/
theorem processTrain_missing_geometry (geo : Geo) (s : EngineState)
    (train : VehicleFix) (t : Time) (speed : ℚ)
    (hgeom : s.flattenedRouteMap train.route = none ∨
      s.flattenedRouteMap train.route = some [])
    (hdefer : guardDefers geo s train) :
    processTrain geo s train t speed =
      { s with lastSeenTimes := setKey s.lastSeenTimes train.id geo.nowMs } := by
  rw [processTrain_of_defers geo s train t speed hdefer]
  have hfind : findPositionAlongTrack geo s.flattenedRouteMap train = none := by
    unfold findPositionAlongTrack
    rcases hgeom with h | h <;> rw [h]
  rw [hfind]

theorem processTrain_missing_geometry_witness :
    stateNew.flattenedRouteMap "Z" = none ∧
    processTrain geoC stateNew fixZ2 3 18 =
      { stateNew with lastSeenTimes := setKey stateNew.lastSeenTimes "n2" 1000 } :=
  ⟨rfl, processTrain_missing_geometry geoC stateNew fixZ2 3 18 (Or.inl rfl) trivial⟩

/-- C2 counterexample: `fixFarZ` is a fix on a route with no geometry at all,
for a tracked vehicle whose last known position is more than 2000 m away.
Processing it mutates the engine state in three ways (the guard resets the
entity, moves the last-known position, and the last-seen time is refreshed),
refuting the claim that such a fix leaves the state unchanged. -/
theorem processTrain_missing_geometry_counterexample :
    stateFar.flattenedRouteMap "Z" = none ∧
    (processTrain geoC stateFar fixFarZ 3 18).trainEntities "t1" ≠
      stateFar.trainEntities "t1" ∧
    (processTrain geoC stateFar fixFarZ 3 18).lastKnownCoords "t1" ≠
      stateFar.lastKnownCoords "t1" ∧
    (processTrain geoC stateFar fixFarZ 3 18).lastSeenTimes "t1" ≠
      stateFar.lastSeenTimes "t1" := by
  decide

/-- C9: when a tracked vehicle is updated, its current interpolated position
resolves, and that position is less than 10 m from the newly snapped target,
the update is a no-op: the entity map (hence its MotionProperty) and the
last-known track-space positions are exactly as before; only the last-seen
time is refreshed. -/
theorem processTrain_noop_within_10m (geo : Geo) (s : EngineState)
    (train : VehicleFix) (t : Time) (speed : ℚ) (e : Entity) (snap : SnapResult)
    (cur : Pos)
    (hdefer : guardDefers geo s train)
    (hent : s.trainEntities train.id = some e)
    (hsnap : findPositionAlongTrack geo s.flattenedRouteMap train = some snap)
    (hcur : geo.getValue e.position t = some cur)
    (hnear : geo.distance cur snap.newPos < 10) :
    processTrain geo s train t speed =
      { s with lastSeenTimes := setKey s.lastSeenTimes train.id geo.nowMs } := by
  rw [processTrain_of_defers geo s train t speed hdefer, hsnap]
  dsimp only
  rw [hent]
  dsimp only
  unfold updateTrainAnimation
  rw [hcur]
  dsimp only
  rw [if_pos hnear]

theorem processTrain_noop_within_10m_witness :
    stateC9.trainEntities "t9" = some ent9 ∧
    findPositionAlongTrack geoC stateC9.flattenedRouteMap fixNear =
      some ⟨(0, 0, 5), segA, (0, 0)⟩ ∧
    geoC.getValue ent9.position 6 = some (4, 0, 5) ∧
    geoC.distance (4, 0, 5) (0, 0, 5) < 10 ∧
    processTrain geoC stateC9 fixNear 6 18 =
      { stateC9 with lastSeenTimes := setKey stateC9.lastSeenTimes "t9" 1000 } :=
  ⟨rfl, by decide, rfl, by decide,
    processTrain_noop_within_10m geoC stateC9 fixNear 6 18 ent9 ⟨(0, 0, 5), segA, (0, 0)⟩
      (4, 0, 5) ⟨by decide, by decide⟩ rfl (by decide) rfl (by decide)⟩

/-- C10: when a tracked vehicle is updated, its current position resolves,
the displacement to the snapped target is at least 10 m, but `turf.lineSlice`
returns a trivial slice (at most one coordinate), the existing MotionProperty
is nonetheless discarded and replaced by the single seed sample
`(now, currentPos)`, and the last track-space position is set to the snapped
target. -/
theorem processTrain_trivial_slice (geo : Geo) (s : EngineState)
    (train : VehicleFix) (t : Time) (speed : ℚ) (e : Entity) (snap : SnapResult)
    (cur : Pos) (coords : List Coord)
    (hdefer : guardDefers geo s train)
    (hent : s.trainEntities train.id = some e)
    (hid : e.id = train.id)
    (hsnap : findPositionAlongTrack geo s.flattenedRouteMap train = some snap)
    (hcur : geo.getValue e.position t = some cur)
    (hfar : ¬ geo.distance cur snap.newPos < 10)
    (hslice : geo.lineSlice (geo.toDegreesCoord cur) snap.snappedNew snap.closestLine = coords)
    (htriv : coords.length ≤ 1) :
    processTrain geo s train t speed =
      { s with
        lastSeenTimes := setKey s.lastSeenTimes train.id geo.nowMs,
        trainEntities := setKey s.trainEntities train.id
          { e with position := [⟨t, cur⟩] },
        lastKnownCoords := setKey s.lastKnownCoords train.id snap.newPos } := by
  rw [processTrain_of_defers geo s train t speed hdefer, hsnap]
  dsimp only
  rw [hent]
  dsimp only
  unfold updateTrainAnimation
  rw [hcur]
  dsimp only
  rw [if_neg hfar, hslice, hid]
  have hres : resampleWaypoints geo snap.newPos cur coords t
      (max 20 (geo.distance cur snap.newPos / speed)) = [] := by
    unfold resampleWaypoints
    rcases coords with _ | ⟨c0, _ | ⟨c1, rest⟩⟩
    · rfl
    · rfl
    · simp at htriv
  rw [hres]

theorem processTrain_trivial_slice_witness :
    stateTracked.trainEntities "t1" = some ent1 ∧
    findPositionAlongTrack geoNil stateTracked.flattenedRouteMap fixMove =
      some ⟨(0, 0, 5), segA, (0, 0)⟩ ∧
    geoNil.getValue ent1.position 6 = some (50, 0, 5) ∧
    ¬ geoNil.distance (50, 0, 5) (0, 0, 5) < 10 ∧
    geoNil.lineSlice (geoNil.toDegreesCoord (50, 0, 5)) (0, 0) segA = [] ∧
    processTrain geoNil stateTracked fixMove 6 18 =
      { stateTracked with
        lastSeenTimes := setKey stateTracked.lastSeenTimes "t1" 1000,
        trainEntities := setKey stateTracked.trainEntities "t1"
          { ent1 with position := [⟨6, (50, 0, 5)⟩] },
        lastKnownCoords := setKey stateTracked.lastKnownCoords "t1" (0, 0, 5) } :=
  ⟨rfl, by decide, rfl, by decide, rfl,
    processTrain_trivial_slice geoNil stateTracked fixMove 6 18 ent1
      ⟨(0, 0, 5), segA, (0, 0)⟩ (50, 0, 5) [] ⟨by decide, by decide⟩ rfl rfl (by decide)
      rfl (by decide) rfl (by decide)⟩

/-- C1 (amended): a fix whose vehicle id has no existing entity creates a
fresh entity with a single-sample MotionProperty at the snapped position when
the track matcher produces a match; when no match exists (missing or empty
geometry for the route), no entity is created at all.  (The claim as frozen
says an entity is then created at the raw fix position; `processTrain`
instead returns before `createNewTrain`, see the counterexample.) -/
theorem processTrain_new_vehicle (geo : Geo) (s : EngineState)
    (train : VehicleFix) (t : Time) (speed : ℚ)
    (hnew : s.trainEntities train.id = none) :
    (∀ snap, findPositionAlongTrack geo s.flattenedRouteMap train = some snap →
      (processTrain geo s train t speed).trainEntities train.id =
        some { id := train.id, route := train.route,
               visible := !(s.hiddenLines train.route),
               position := [⟨t, snap.newPos⟩] }) ∧
    (findPositionAlongTrack geo s.flattenedRouteMap train = none →
      (processTrain geo s train t speed).trainEntities train.id = none) := by
  have hdefer : guardDefers geo s train := by
    unfold guardDefers
    rw [hnew]
    trivial
  constructor
  · intro snap hsnap
    rw [processTrain_of_defers geo s train t speed hdefer, hsnap]
    dsimp only
    rw [hnew]
    dsimp only [createNewTrain, setKey]
    rw [if_pos rfl]
  · intro hnone
    rw [processTrain_of_defers geo s train t speed hdefer, hnone]
    exact hnew

theorem processTrain_new_vehicle_witness :
    stateNew.trainEntities "n1" = none ∧
    findPositionAlongTrack geoC stateNew.flattenedRouteMap fixNewA =
      some ⟨(0, 0, 5), segA, (0, 0)⟩ ∧
    (processTrain geoC stateNew fixNewA 2 18).trainEntities "n1" =
      some { id := "n1", route := "A", visible := true,
             position := [⟨2, (0, 0, 5)⟩] } :=
  ⟨rfl, by decide,
    (processTrain_new_vehicle geoC stateNew fixNewA 2 18 rfl).1
      ⟨(0, 0, 5), segA, (0, 0)⟩ (by decide)⟩

/-- C1 counterexample: `fixNewZ` is the first sighting of id `n1` on route
`Z`, which has no track geometry, so no track match exists.  After processing,
no entity exists for `n1`: the engine dropped the fix instead of creating a
single-sample entity at the raw position as the claim states. -/
theorem processTrain_new_vehicle_counterexample :
    stateNew.trainEntities "n1" = none ∧
    stateNew.flattenedRouteMap "Z" = none ∧
    (processTrain geoC stateNew fixNewZ 2 18).trainEntities "n1" = none := by
  decide

/-! Lemmas about the nearest-segment scan. -/

/-- Folding `scanStep` over segments none of which beats the running minimum
leaves the accumulator unchanged. -/
theorem foldl_scanStep_of_no_lt (d : Segment → ℚ) :
    ∀ (l : List Segment) (c : Segment) (m : WithTop ℚ),
      (∀ u ∈ l, ¬ ((d u : ℚ) : WithTop ℚ) < m) → l.foldl (scanStep d) (c, m) = (c, m) := by
  intro l
  induction l with
  | nil => intro c m _; rfl
  | cons a l ih =>
    intro c m h
    rw [List.foldl_cons]
    rw [show scanStep d (c, m) a = (c, m) from if_neg (h a (by simp))]
    exact ih c m fun u hu => h u (by simp [hu])

/-- Folding `scanStep` over a list containing a segment that beats the
running minimum yields the first list element attaining the minimal distance:
the result is in the list, carries its own distance, improves on `m`, is
minimal, and is the first element at that distance. -/
theorem foldl_scanStep_spec (d : Segment → ℚ) :
    ∀ (l : List Segment) (c : Segment) (m : WithTop ℚ),
      (∃ u ∈ l, ((d u : ℚ) : WithTop ℚ) < m) →
      (l.foldl (scanStep d) (c, m)).1 ∈ l ∧
      (l.foldl (scanStep d) (c, m)).2 = ((d (l.foldl (scanStep d) (c, m)).1 : ℚ) : WithTop ℚ) ∧
      (l.foldl (scanStep d) (c, m)).2 < m ∧
      (∀ u ∈ l, ((d (l.foldl (scanStep d) (c, m)).1 : ℚ) : WithTop ℚ) ≤ ((d u : ℚ) : WithTop ℚ)) ∧
      l.find? (fun u => decide (d u = d (l.foldl (scanStep d) (c, m)).1)) =
        some (l.foldl (scanStep d) (c, m)).1 := by
  intro l
  induction l with
  | nil => rintro c m ⟨u, hu, _⟩; simp at hu
  | cons a l ih =>
    intro c m hex
    rw [List.foldl_cons]
    by_cases hd : ((d a : ℚ) : WithTop ℚ) < m
    · rw [show scanStep d (c, m) a = (a, ((d a : ℚ) : WithTop ℚ)) from if_pos hd]
      by_cases hex2 : ∃ u ∈ l, ((d u : ℚ) : WithTop ℚ) < ((d a : ℚ) : WithTop ℚ)
      · obtain ⟨h1, h2, h3, h4, h5⟩ := ih a ((d a : ℚ) : WithTop ℚ) hex2
        have hlt : d (l.foldl (scanStep d) (a, ((d a : ℚ) : WithTop ℚ))).1 < d a :=
          WithTop.coe_lt_coe.mp (h2 ▸ h3)
        refine ⟨List.mem_cons_of_mem a h1, h2, lt_trans h3 hd, ?_, ?_⟩
        · intro u hu
          rcases List.mem_cons.mp hu with rfl | hu
          · exact le_of_lt (h2 ▸ h3)
          · exact h4 u hu
        · rw [List.find?_cons_of_neg, h5]
          simp only [decide_eq_true_eq]
          exact fun heq => absurd heq (ne_of_gt hlt)
      · push_neg at hex2
        rw [foldl_scanStep_of_no_lt d l a ((d a : ℚ) : WithTop ℚ)
          fun u hu => not_lt.mpr (hex2 u hu)]
        refine ⟨by simp, rfl, hd, ?_, ?_⟩
        · intro u hu
          rcases List.mem_cons.mp hu with rfl | hu
          · exact le_refl _
          · exact hex2 u hu
        · rw [List.find?_cons_of_pos]
          simp
    · have hex3 : ∃ u ∈ l, ((d u : ℚ) : WithTop ℚ) < m := by
        obtain ⟨u, hu, hlt⟩ := hex
        rcases List.mem_cons.mp hu with rfl | hu2
        · exact absurd hlt hd
        · exact ⟨u, hu2, hlt⟩
      rw [show scanStep d (c, m) a = (c, m) from if_neg hd]
      obtain ⟨h1, h2, h3, h4, h5⟩ := ih c m hex3
      have hlt : d (l.foldl (scanStep d) (c, m)).1 < d a :=
        WithTop.coe_lt_coe.mp (lt_of_lt_of_le (h2 ▸ h3) (not_lt.mp hd))
      refine ⟨List.mem_cons_of_mem a h1, h2, h3, ?_, ?_⟩
      · intro u hu
        rcases List.mem_cons.mp hu with rfl | hu
        · exact le_of_lt (WithTop.coe_lt_coe.mpr hlt)
        · exact h4 u hu
      · rw [List.find?_cons_of_neg, h5]
        simp only [decide_eq_true_eq]
        exact fun heq => absurd heq (ne_of_gt hlt)

/-- C3: for every fix and every non-empty set of track segments registered
for its route, the track matcher returns a snap result whose winning segment
attains the minimum point-to-line distance from the raw fix position over all
segments of the set, and it is the first segment in iteration order attaining
exactly that distance (first-encountered wins on ties). -/
theorem findPositionAlongTrack_min (geo : Geo) (rm : RouteMap) (train : VehicleFix)
    (segs : List Segment)
    (hfind : rm train.route = some segs) (hne : segs ≠ []) :
    ∃ snap, findPositionAlongTrack geo rm train = some snap ∧
      snap.closestLine ∈ segs ∧
      (∀ u ∈ segs,
        geo.pointToLineDistance (train.lon, train.lat) snap.closestLine ≤
          geo.pointToLineDistance (train.lon, train.lat) u) ∧
      segs.find? (fun u => decide (geo.pointToLineDistance (train.lon, train.lat) u =
        geo.pointToLineDistance (train.lon, train.lat) snap.closestLine)) =
        some snap.closestLine := by
  rcases segs with _ | ⟨first, rest⟩
  · exact absurd rfl hne
  have hex : ∃ u ∈ first :: rest,
      ((geo.pointToLineDistance (train.lon, train.lat) u : ℚ) : WithTop ℚ) < ⊤ :=
    ⟨first, by simp, WithTop.coe_lt_top _⟩
  obtain ⟨h1, h2, h3, h4, h5⟩ :=
    foldl_scanStep_spec (fun u => geo.pointToLineDistance (train.lon, train.lat) u)
      (first :: rest) first ⊤ hex
  refine ⟨⟨geo.fromDegrees
      (geo.nearestPointOnLine
        ((first :: rest).foldl
          (scanStep fun u => geo.pointToLineDistance (train.lon, train.lat) u)
          (first, ⊤)).1 (train.lon, train.lat)).1
      (geo.nearestPointOnLine
        ((first :: rest).foldl
          (scanStep fun u => geo.pointToLineDistance (train.lon, train.lat) u)
          (first, ⊤)).1 (train.lon, train.lat)).2 5,
    ((first :: rest).foldl
      (scanStep fun u => geo.pointToLineDistance (train.lon, train.lat) u)
      (first, ⊤)).1,
    geo.nearestPointOnLine
      ((first :: rest).foldl
        (scanStep fun u => geo.pointToLineDistance (train.lon, train.lat) u)
        (first, ⊤)).1 (train.lon, train.lat)⟩, ?_, h1, ?_, ?_⟩
  · unfold findPositionAlongTrack
    rw [hfind]
    rfl
  · intro u hu
    exact WithTop.coe_le_coe.mp (h4 u hu)
  · exact h5

theorem findPositionAlongTrack_min_witness :
    stateC3.flattenedRouteMap "B" = some [segB, segA] ∧
    ([segB, segA] : List Segment) ≠ [] ∧
    (∃ snap, findPositionAlongTrack geoC stateC3.flattenedRouteMap fixB = some snap ∧
      snap.closestLine ∈ [segB, segA] ∧
      (∀ u ∈ [segB, segA],
        geoC.pointToLineDistance (fixB.lon, fixB.lat) snap.closestLine ≤
          geoC.pointToLineDistance (fixB.lon, fixB.lat) u) ∧
      [segB, segA].find? (fun u => decide (geoC.pointToLineDistance (fixB.lon, fixB.lat) u =
        geoC.pointToLineDistance (fixB.lon, fixB.lat) snap.closestLine)) =
        some snap.closestLine) :=
  ⟨rfl, by decide,
    findPositionAlongTrack_min geoC stateC3.flattenedRouteMap fixB [segB, segA] rfl (by decide)⟩

/-! Lemmas about the path-rebuild branch of `updateTrainAnimation`. -/

/-- When the current position resolves and the displacement reaches the 10 m
threshold, `updateTrainAnimation` replaces the MotionProperty with the seed
sample followed by the resampled waypoints and records the snapped target. -/
theorem updateTrainAnimation_rebuild (geo : Geo) (s : EngineState) (e : Entity)
    (newPos : Pos) (closestLine : Segment) (snappedNew : Coord) (t : Time)
    (speed : ℚ) (cur : Pos)
    (hcur : geo.getValue e.position t = some cur)
    (hfar : ¬ geo.distance cur newPos < 10) :
    updateTrainAnimation geo s e newPos closestLine snappedNew t speed =
      { s with
        trainEntities := setKey s.trainEntities e.id
          { e with position := (⟨t, cur⟩ ::
            resampleWaypoints geo newPos cur
              (geo.lineSlice (geo.toDegreesCoord cur) snappedNew closestLine) t
              (max 20 (geo.distance cur newPos / speed))) },
        lastKnownCoords := setKey s.lastKnownCoords e.id newPos } := by
  unfold updateTrainAnimation
  rw [hcur]
  dsimp only
  rw [if_neg hfar]

/-- `processTrain` in the full rebuild scenario: tracked vehicle, guard
defers, match found, current position resolves, displacement at least 10 m. -/
theorem processTrain_rebuild (geo : Geo) (s : EngineState) (train : VehicleFix)
    (t : Time) (speed : ℚ) (e : Entity) (snap : SnapResult) (cur : Pos)
    (hdefer : guardDefers geo s train)
    (hent : s.trainEntities train.id = some e)
    (hid : e.id = train.id)
    (hsnap : findPositionAlongTrack geo s.flattenedRouteMap train = some snap)
    (hcur : geo.getValue e.position t = some cur)
    (hfar : ¬ geo.distance cur snap.newPos < 10) :
    processTrain geo s train t speed =
      { s with
        lastSeenTimes := setKey s.lastSeenTimes train.id geo.nowMs,
        trainEntities := setKey s.trainEntities train.id
          { e with position := (⟨t, cur⟩ ::
            resampleWaypoints geo snap.newPos cur
              (geo.lineSlice (geo.toDegreesCoord cur) snap.snappedNew snap.closestLine) t
              (max 20 (geo.distance cur snap.newPos / speed))) },
        lastKnownCoords := setKey s.lastKnownCoords train.id snap.newPos } := by
  rw [processTrain_of_defers geo s train t speed hdefer, hsnap]
  dsimp only
  rw [hent]
  dsimp only
  rw [updateTrainAnimation_rebuild geo _ e snap.newPos snap.closestLine snap.snappedNew
    t speed cur hcur hfar, hid]

/-- The resampled waypoint list has one sample per slice vertex. -/
theorem resampleWaypoints_length (geo : Geo) (newPos cur : Pos) (coords : List Coord)
    (t : Time) (dur : ℚ) (hN : 2 ≤ coords.length) :
    (resampleWaypoints geo newPos cur coords t dur).length = coords.length := by
  rcases coords with _ | ⟨c0, _ | ⟨c1, rest⟩⟩
  · simp at hN
  · simp at hN
  · unfold resampleWaypoints
    dsimp only
    by_cases hdot : cdot (csub newPos cur)
        (csub (geo.fromDegrees c1.1 c1.2 5) (geo.fromDegrees c0.1 c0.2 5)) < 0
    · rw [if_pos hdot]
      simp [List.enum_length]
    · rw [if_neg hdot]
      simp [List.enum_length]

/-- Waypoint `i` of the resampled list is timed at offset
`(i / (N - 1)) * duration`, where `N` is the number of slice vertices. -/
theorem resampleWaypoints_get? (geo : Geo) (newPos cur : Pos) (coords : List Coord)
    (t : Time) (dur : ℚ) (hN : 2 ≤ coords.length) (i : ℕ) (hi : i < coords.length) :
    ((resampleWaypoints geo newPos cur coords t dur).get? i).map MotionSample.time =
      some (t + ((i : ℚ) / ((coords.length - 1 : ℕ) : ℚ)) * dur) := by
  rcases coords with _ | ⟨c0, _ | ⟨c1, rest⟩⟩
  · simp at hN
  · simp at hN
  · unfold resampleWaypoints
    dsimp only
    by_cases hdot : cdot (csub newPos cur)
        (csub (geo.fromDegrees c1.1 c1.2 5) (geo.fromDegrees c0.1 c0.2 5)) < 0
    · rw [if_pos hdot]
      have hi2 : i < (c0 :: c1 :: rest).reverse.length := by
        simpa using hi
      rw [List.get?_map, List.get?_enum, List.get?_eq_get hi2]
      simp
    · rw [if_neg hdot]
      rw [List.get?_map, List.get?_enum, List.get?_eq_get hi]
      simp

/-- C5: in a path rebuild with displacement `d` (tracked vehicle, guard
defers, match found, current position resolves, `d` at least 10 m, slice of
`N ≥ 2` vertices) at the production average speed of 18 m/s, the new
MotionProperty is the seed sample followed by one sample per slice vertex,
waypoint `i` being timed at `now + (i / (N - 1)) * duration` with
`duration = max 20 (d / 18)`; consequently the last sample of the rebuilt
property carries absolute time `now + duration`. -/
theorem processTrain_rebuild_timing (geo : Geo) (s : EngineState)
    (train : VehicleFix) (t : Time) (e : Entity) (snap : SnapResult) (cur : Pos)
    (coords : List Coord)
    (hdefer : guardDefers geo s train)
    (hent : s.trainEntities train.id = some e)
    (hid : e.id = train.id)
    (hsnap : findPositionAlongTrack geo s.flattenedRouteMap train = some snap)
    (hcur : geo.getValue e.position t = some cur)
    (hfar : ¬ geo.distance cur snap.newPos < 10)
    (hslice : geo.lineSlice (geo.toDegreesCoord cur) snap.snappedNew snap.closestLine = coords)
    (hN : 2 ≤ coords.length) :
    ∃ e2, (processTrain geo s train t 18).trainEntities train.id = some e2 ∧
      e2.position.length = coords.length + 1 ∧
      (∀ i < coords.length,
        (e2.position.get? (i + 1)).map MotionSample.time =
          some (t + ((i : ℚ) / ((coords.length - 1 : ℕ) : ℚ)) *
            max 20 (geo.distance cur snap.newPos / 18))) ∧
      (e2.position.getLast?).map MotionSample.time =
        some (t + max 20 (geo.distance cur snap.newPos / 18)) := by
  rw [processTrain_rebuild geo s train t 18 e snap cur hdefer hent hid hsnap hcur hfar,
    hslice]
  refine ⟨{ e with position := (⟨t, cur⟩ ::
      resampleWaypoints geo snap.newPos cur coords t
        (max 20 (geo.distance cur snap.newPos / 18))) }, by simp [setKey], ?_, ?_, ?_⟩
  · simp [resampleWaypoints_length geo snap.newPos cur coords t _ hN]
  · intro i hi
    rw [show ((⟨t, cur⟩ :: resampleWaypoints geo snap.newPos cur coords t
        (max 20 (geo.distance cur snap.newPos / 18))) : MotionProperty).get? (i + 1) =
      (resampleWaypoints geo snap.newPos cur coords t
        (max 20 (geo.distance cur snap.newPos / 18))).get? i from rfl]
    exact resampleWaypoints_get? geo snap.newPos cur coords t _ hN i hi
  · rw [List.getLast?_eq_get?]
    rw [show ((⟨t, cur⟩ :: resampleWaypoints geo snap.newPos cur coords t
        (max 20 (geo.distance cur snap.newPos / 18))) : MotionProperty).length - 1 =
      (coords.length - 1) + 1 by
        simp [resampleWaypoints_length geo snap.newPos cur coords t _ hN]; omega]
    rw [show ((⟨t, cur⟩ :: resampleWaypoints geo snap.newPos cur coords t
        (max 20 (geo.distance cur snap.newPos / 18))) : MotionProperty).get?
        ((coords.length - 1) + 1) =
      (resampleWaypoints geo snap.newPos cur coords t
        (max 20 (geo.distance cur snap.newPos / 18))).get? (coords.length - 1) from rfl]
    rw [resampleWaypoints_get? geo snap.newPos cur coords t _ hN (coords.length - 1)
      (by omega)]
    rw [div_self (show ((coords.length - 1 : ℕ) : ℚ) ≠ 0 from
      Nat.cast_ne_zero.mpr (by omega)), one_mul]

theorem processTrain_rebuild_timing_witness :
    stateTracked.trainEntities "t1" = some ent1 ∧
    findPositionAlongTrack geoC stateTracked.flattenedRouteMap fixMove =
      some ⟨(0, 0, 5), segA, (0, 0)⟩ ∧
    geoC.getValue ent1.position 6 = some (50, 0, 5) ∧
    ¬ geoC.distance (50, 0, 5) (0, 0, 5) < 10 ∧
    geoC.lineSlice (geoC.toDegreesCoord (50, 0, 5)) (0, 0) segA = [(50, 0), (0, 0)] ∧
    (∃ e2, (processTrain geoC stateTracked fixMove 6 18).trainEntities "t1" = some e2 ∧
      e2.position.length = 3 ∧
      (∀ i < 2,
        (e2.position.get? (i + 1)).map MotionSample.time =
          some (6 + ((i : ℚ) / ((1 : ℕ) : ℚ)) * max 20 (geoC.distance (50, 0, 5) (0, 0, 5) / 18))) ∧
      (e2.position.getLast?).map MotionSample.time =
        some (6 + max 20 (geoC.distance (50, 0, 5) (0, 0, 5) / 18))) :=
  ⟨rfl, by decide, rfl, by decide, rfl,
    processTrain_rebuild_timing geoC stateTracked fixMove 6 ent1
      ⟨(0, 0, 5), segA, (0, 0)⟩ (50, 0, 5) [(50, 0), (0, 0)] ⟨by decide, by decide⟩ rfl rfl
      (by decide) rfl (by decide) rfl (by decide)⟩

/-- Adjacent samples emitted by the per-vertex resampling loop have
non-decreasing times, for any monotone index-to-offset map. -/
theorem chain'_enumFrom_map_time (t : Time) (g : ℕ → ℚ) (p : ℕ × Coord → Pos)
    (hg : ∀ i, g i ≤ g (i + 1)) :
    ∀ (l : List Coord) (n : ℕ),
      List.Chain' (fun a b => a.time ≤ b.time)
        ((List.enumFrom n l).map fun ic => (⟨t + g ic.1, p ic⟩ : MotionSample)) := by
  intro l
  induction l with
  | nil => intro n; simp
  | cons a l ih =>
    intro n
    rw [show List.enumFrom n (a :: l) = (n, a) :: List.enumFrom (n + 1) l from rfl,
      List.map_cons, List.chain'_cons']
    refine ⟨?_, ih (n + 1)⟩
    intro y hy
    cases l with
    | nil => simp at hy
    | cons b l2 =>
      rw [show List.enumFrom (n + 1) (b :: l2) = (n + 1, b) :: List.enumFrom (n + 2) l2
        from rfl, List.map_cons] at hy
      simp only [List.head?_cons, Option.mem_def, Option.some_inj] at hy
      rw [← hy]
      exact add_le_add_left (hg n) t

/-- The seed sample at `now` followed by the resampled waypoints is
non-decreasing in time when the offset map is monotone and starts at a
non-negative offset. -/
theorem chain'_time_seed (t : Time) (g : ℕ → ℚ) (p : ℕ × Coord → Pos)
    (hg : ∀ i, g i ≤ g (i + 1)) (hg0 : 0 ≤ g 0) (seedPos : Pos) (l : List Coord) :
    List.Chain' (fun a b => a.time ≤ b.time)
      ((⟨t, seedPos⟩ : MotionSample) ::
        (l.enum.map fun ic => (⟨t + g ic.1, p ic⟩ : MotionSample))) := by
  rw [List.chain'_cons']
  refine ⟨?_, chain'_enumFrom_map_time t g p hg l 0⟩
  intro y hy
  cases l with
  | nil => simp at hy
  | cons a l2 =>
    rw [show (a :: l2).enum = (0, a) :: List.enumFrom 1 l2 from rfl, List.map_cons] at hy
    simp only [List.head?_cons, Option.mem_def, Option.some_inj] at hy
    rw [← hy]
    exact le_add_of_nonneg_right hg0

/-- C8: in a path rebuild whose computed track slice has at least two
vertices, the replacement MotionProperty has at least 2 samples (in fact one
more than the slice has vertices), and the samples appended in the rebuild
have non-decreasing timestamps in append order. -/
theorem processTrain_rebuild_monotone (geo : Geo) (s : EngineState)
    (train : VehicleFix) (t : Time) (speed : ℚ) (e : Entity) (snap : SnapResult)
    (cur : Pos) (coords : List Coord)
    (hdefer : guardDefers geo s train)
    (hent : s.trainEntities train.id = some e)
    (hid : e.id = train.id)
    (hsnap : findPositionAlongTrack geo s.flattenedRouteMap train = some snap)
    (hcur : geo.getValue e.position t = some cur)
    (hfar : ¬ geo.distance cur snap.newPos < 10)
    (hslice : geo.lineSlice (geo.toDegreesCoord cur) snap.snappedNew snap.closestLine = coords)
    (hN : 2 ≤ coords.length) :
    ∃ e2, (processTrain geo s train t speed).trainEntities train.id = some e2 ∧
      2 ≤ e2.position.length ∧
      List.Chain' (fun a b => a.time ≤ b.time) e2.position := by
  rw [processTrain_rebuild geo s train t speed e snap cur hdefer hent hid hsnap hcur hfar,
    hslice]
  have hdur : (0 : ℚ) ≤ max 20 (geo.distance cur snap.newPos / speed) :=
    le_trans (by norm_num) (le_max_left _ _)
  refine ⟨{ e with position := (⟨t, cur⟩ ::
      resampleWaypoints geo snap.newPos cur coords t
        (max 20 (geo.distance cur snap.newPos / speed))) }, by simp [setKey], ?_, ?_⟩
  · simp only [List.length_cons,
      resampleWaypoints_length geo snap.newPos cur coords t _ hN]
    omega
  · rcases coords with _ | ⟨c0, _ | ⟨c1, rest⟩⟩
    · simp at hN
    · simp at hN
    · show List.Chain' (fun a b => a.time ≤ b.time)
        ((⟨t, cur⟩ : MotionSample) :: resampleWaypoints geo snap.newPos cur
          (c0 :: c1 :: rest) t (max 20 (geo.distance cur snap.newPos / speed)))
      unfold resampleWaypoints
      dsimp only
      have hmono : ∀ (L : ℕ) (i : ℕ),
          ((i : ℚ) / ((L : ℕ) : ℚ)) * max 20 (geo.distance cur snap.newPos / speed) ≤
            (((i + 1 : ℕ) : ℚ) / ((L : ℕ) : ℚ)) *
              max 20 (geo.distance cur snap.newPos / speed) := by
        intro L i
        apply mul_le_mul_of_nonneg_right _ hdur
        rcases (Nat.cast_nonneg L : (0 : ℚ) ≤ (L : ℚ)).eq_or_lt with hc | hc
        · rw [← hc, div_zero, div_zero]
        · exact (div_le_div_iff_of_pos_right hc).mpr (by exact_mod_cast Nat.le_succ i)
      by_cases hdot : cdot (csub snap.newPos cur)
          (csub (geo.fromDegrees c1.1 c1.2 5) (geo.fromDegrees c0.1 c0.2 5)) < 0
      · rw [if_pos hdot]
        exact chain'_time_seed t
          (fun i => ((i : ℚ) / (((c0 :: c1 :: rest).reverse.length - 1 : ℕ) : ℚ)) *
            max 20 (geo.distance cur snap.newPos / speed))
          (fun ic => geo.fromDegrees ic.2.1 ic.2.2 5)
          (fun i => hmono _ i) (by simp) cur ((c0 :: c1 :: rest).reverse)
      · rw [if_neg hdot]
        exact chain'_time_seed t
          (fun i => ((i : ℚ) / (((c0 :: c1 :: rest).length - 1 : ℕ) : ℚ)) *
            max 20 (geo.distance cur snap.newPos / speed))
          (fun ic => geo.fromDegrees ic.2.1 ic.2.2 5)
          (fun i => hmono _ i) (by simp) cur (c0 :: c1 :: rest)

theorem processTrain_rebuild_monotone_witness :
    stateTracked.trainEntities "t1" = some ent1 ∧
    geoC.lineSlice (geoC.toDegreesCoord (50, 0, 5)) (0, 0) segA = [(50, 0), (0, 0)] ∧
    (∃ e2, (processTrain geoC stateTracked fixMove 6 18).trainEntities "t1" = some e2 ∧
      2 ≤ e2.position.length ∧
      List.Chain' (fun a b => a.time ≤ b.time) e2.position) :=
  ⟨rfl, rfl,
    processTrain_rebuild_monotone geoC stateTracked fixMove 6 18 ent1
      ⟨(0, 0, 5), segA, (0, 0)⟩ (50, 0, 5) [(50, 0), (0, 0)] ⟨by decide, by decide⟩ rfl rfl
      (by decide) rfl (by decide) rfl (by decide)⟩

end Subway
